import Mathlib

/-!
Shallow embedding of the developer-tools research pipeline
(`src/workflow.py`, class `Workflow`) and verification of its
specification's testable properties.

The pipeline is a linear three-stage state machine
(extract_tools → research → analyze) that reads external services
(Firecrawl search/scrape, an LLM client) and emits progress events
through an optional callback.  The external services are modelled as an
oracle record `Env`; a run is then a pure function of the oracle, the
prompt templates and the query, which makes every claim a statement
about total Lean functions.
-/

namespace DevtoolAgent

/-- Modelled from the spec: `src/models.py` is not in the sources; the
spec's data model §3 gives `CompanyAnalysis` the attribute subset of a
company minus name/website/competitors, with `pricing_model` a string,
tri-state booleans as `Option Bool`, and string lists. -/
structure CompanyAnalysis where
  pricing_model : String
  is_open_source : Option Bool
  tech_stack : List String
  description : String
  api_available : Option Bool
  language_support : List String
  integration_capabilities : List String
deriving DecidableEq, Repr

/-- Modelled from the spec: `src/models.py` is not in the sources; the
spec's data model §3 gives the Company record these fields, with
"string or unknown" rendered as `Option String := none` and tri-state
booleans as `Option Bool := none`.  `workflow.py` constructs it with
only name/description/website/tech_stack/competitors, so the remaining
fields carry defaults. -/
structure CompanyInfo where
  name : String
  description : String := ""
  website : String := ""
  pricing_model : Option String := none
  is_open_source : Option Bool := none
  tech_stack : List String := []
  api_available : Option Bool := none
  language_support : List String := []
  integration_capabilities : List String := []
  competitors : List String := []
deriving DecidableEq, Repr

/-- Modelled from the spec: `src/models.py` is not in the sources; the
spec's data model §3: query (required), extracted_tools, companies,
analysis with empty defaults. -/
structure ResearchState where
  query : String
  extracted_tools : List String := []
  companies : List CompanyInfo := []
  analysis : String := ""
deriving DecidableEq, Repr

/-- One search hit as `workflow.py` reads it: a dict with optional
`url`, `markdown` and `metadata.title` keys (the metadata wrapper is
collapsed into the single `title` field, since the code only ever reads
`result.get("metadata", \x7b\x7d).get("title", "Unknown")`). -/
structure SearchResult where
  url : Option String := none
  markdown : Option String := none
  title : Option String := none
deriving DecidableEq, Repr

/-- A scraped page as `workflow.py` reads it: an object with an
optional `markdown` attribute. -/
structure ScrapedDoc where
  markdown : Option String := none
deriving DecidableEq, Repr

/-- Progress events, one constructor per `phase` emitted by
`workflow.py` (ctor docstring lines 17-25 and the `_emit` call sites). -/
inductive Event where
  | extract_tools_start (query : String)
  | extracted_tools (tools : List String)
  | research_fallback (query : String)
  | research_start (tools : List String)
  | research_tool_start (tool : String)
  | company_ready (company : CompanyInfo)
  | research_done (count : Nat)
  | analysis_start
  | analysis_done (analysis : String)
  | final (final_state : ResearchState)
  | error (message : String)
deriving DecidableEq, Repr

/-- Role-tagged chat messages (`SystemMessage` / `HumanMessage`). -/
inductive Message where
  | system (content : String)
  | human (content : String)
deriving DecidableEq, Repr

/-- Modelled from the spec: `src/prompts.py` is not in the sources; the
spec §2 describes the prompt templates as pure functions mapping
(query, content) to message text for the three tasks, so they are kept
abstract as fields. -/
structure DeveloperToolsPrompts where
  TOOL_EXTRACTION_SYSTEM : String
  tool_extraction_user : String → String → String
  TOOL_ANALYSIS_SYSTEM : String
  tool_analysis_user : String → String → String
  RECOMMENDATIONS_SYSTEM : String
  recommendations_user : String → String → String

/-- A progress callback: receives an event and either returns (ok) or
raises (error), mirroring an arbitrary Python callable. -/
def ProgressCallback : Type := Event → Except String Unit

/-- The external world the pipeline reads.  Modelled from the spec for
the client side: `src/firecrawl.py` is not in the sources, and the spec
§2/§6 fix its contract — `search` returns an ordered result list or
null/empty ON FAILURE RATHER THAN THROWING, likewise `scrape`; the LLM
client's `complete`/`completeStructured` calls may raise (spec §6), so
they return `Except`. -/
structure Env where
  search : String → Nat → Option (List SearchResult)
  scrape : String → Option ScrapedDoc
  invoke : List Message → Except String String
  invokeStructured : List Message → Except String CompanyAnalysis

/-- The `Workflow` instance state the claims mention: the two external
clients (as `env`), the prompt templates, and the stored progress
callback reference (`self._progress_callback`). -/
structure Workflow where
  env : Env
  prompts : DeveloperToolsPrompts
  progress_callback : Option ProgressCallback := none

/-- Embeds `Workflow._emit` (workflow.py lines 36-42): calls the callback if
one is set, catching any exception it raises so the run is never
interrupted.  The returned list is the event trace entry: the event is
part of the run's emission sequence whatever the callback does. -/
def emit (cb : Option ProgressCallback) (e : Event) : List Event :=
  match cb with
  | none => [e]
  | some f =>
    match f e with
    | Except.ok _ => [e]
    | Except.error _ => [e]

/-- Reading `getattr(search_results, "data", ...)` through the code's
truthiness checks: a null response or absent/None data behaves exactly
like an empty data list at every use site (lines 62, 119, 131). -/
def dataOf : Option (List SearchResult) → List SearchResult
  | some d => d
  | none => []

/-- The truthiness test `scraped and getattr(scraped, "markdown", None)`
(lines 66 and 147): yields the markdown only when the scrape returned an
object whose markdown is a non-empty string. -/
def markdownOf : Option ScrapedDoc → Option String
  | some d =>
    match d.markdown with
    | some m => if m = "" then none else some m
    | none => none
  | none => none

/-- Lines 61-67: concatenate the first 1500 characters of each
successfully scraped result page, separated by blank lines. -/
def gatherContent (env : Env) : List SearchResult → String → String
  | [], acc => acc
  | r :: rs, acc =>
    match markdownOf (env.scrape (r.url.getD "")) with
    | some m => gatherContent env rs (acc ++ (m.take 1500 ++ "\n\n"))
    | none => gatherContent env rs acc

/-- Python `str.strip()`: drop whitespace from both ends.  Kept at the
character-list level so it stays kernel-computable. -/
def pyStrip (l : List Char) : List Char :=
  ((l.dropWhile Char.isWhitespace).reverse.dropWhile Char.isWhitespace).reverse

/-- Python `str.split("\n")` at the character-list level: cut at every
newline, keeping empty pieces. -/
def splitNl : List Char → List Char → List (List Char)
  | [], acc => [acc.reverse]
  | c :: cs, acc =>
    if c = '\n' then acc.reverse :: splitNl cs [] else splitNl cs (c :: acc)

/-- Lines 75-79: strip the completion, split on newlines, strip each
line and keep the non-empty ones. -/
def splitTrim (s : String) : List String :=
  (splitNl (pyStrip s.data) []).filterMap
    (fun l => if pyStrip l = [] then none else some (String.mk (pyStrip l)))

/-- The message list built for the tool-extraction LLM call (lines 69-72). -/
def extractionMessages (P : DeveloperToolsPrompts) (q allContent : String) : List Message :=
  [Message.system P.TOOL_EXTRACTION_SYSTEM, Message.human (P.tool_extraction_user q allContent)]

/-- The message list built for the per-tool analysis LLM call (lines 91-94). -/
def analysisMessages (P : DeveloperToolsPrompts) (name content : String) : List Message :=
  [Message.system P.TOOL_ANALYSIS_SYSTEM, Message.human (P.tool_analysis_user name content)]

/-- The message list built for the recommendation LLM call (lines 181-184). -/
def recommendationMessages (P : DeveloperToolsPrompts) (q companyData : String) : List Message :=
  [Message.system P.RECOMMENDATIONS_SYSTEM, Message.human (P.recommendations_user q companyData)]

/-- Modelled from the spec: pydantic's `company.json()` "serializes
every company record to a textual form" (spec §4.4); the exact rendering
is not load-bearing for any claim. -/
def CompanyInfo.json (c : CompanyInfo) : String :=
  String.intercalate "|"
    [ c.name, c.description, c.website, c.pricing_model.getD "null"
    , String.intercalate "," c.tech_stack
    , String.intercalate "," c.language_support
    , String.intercalate "," c.integration_capabilities
    , String.intercalate "," c.competitors ]

/-- Line 177-179: `", ".join(company.json() for company in state.companies)`. -/
def companiesBlob (cs : List CompanyInfo) : String :=
  String.intercalate ", " (cs.map CompanyInfo.json)

/-- Embeds `Workflow._extract_tools_step` (lines 55-85).  The Firecrawl calls
never raise (client contract), so the only exception the outer
`try/except` can see comes from the LLM invocation. -/
def extractStep (env : Env) (cb : Option ProgressCallback) (P : DeveloperToolsPrompts)
    (q : String) : List String × List Event :=
  let evs0 := emit cb (Event.extract_tools_start q)
  let all_content :=
    gatherContent env (dataOf (env.search (q ++ " tools comparison best alternatives") 3)) ""
  match env.invoke (extractionMessages P q all_content) with
  | Except.ok content =>
    let tool_names := splitTrim content
    (tool_names, evs0 ++ emit cb (Event.extracted_tools tool_names))
  | Except.error e =>
    ([], evs0 ++ emit cb (Event.error ("extract_tools failed: " ++ e)))

/-- The sentinel analysis record substituted when the structured LLM
call raises (lines 100-108). -/
def sentinelAnalysis : CompanyAnalysis :=
  { pricing_model := "Unknown"
  , is_open_source := none
  , tech_stack := []
  , description := "Failed"
  , api_available := none
  , language_support := []
  , integration_capabilities := [] }

/-- Embeds `Workflow._analyze_company_content` (lines 87-108): structured LLM
call; on any exception return the sentinel record instead of
propagating. -/
def analyzeCompanyContent (env : Env) (P : DeveloperToolsPrompts)
    (company_name content : String) : CompanyAnalysis :=
  match env.invokeStructured (analysisMessages P company_name content) with
  | Except.ok a => a
  | Except.error _ => sentinelAnalysis

/-- Lines 151-157: overwrite the seeded record's analysis fields with
the analysis result. -/
def applyAnalysis (c : CompanyInfo) (a : CompanyAnalysis) : CompanyInfo :=
  { c with
    pricing_model := some a.pricing_model
  , is_open_source := a.is_open_source
  , tech_stack := a.tech_stack
  , description := a.description
  , api_available := a.api_available
  , language_support := a.language_support
  , integration_capabilities := a.integration_capabilities }

/-- The per-tool research loop (lines 127-165): for each tool name,
emit a start event, search "<tool> official site" (top-1); skip the tool
entirely when there is no result; otherwise seed a record from the top
hit, scrape its URL, run the content analysis when the scrape yielded
markdown, append the record and emit `company_ready`. -/
def researchLoop (env : Env) (cb : Option ProgressCallback) (P : DeveloperToolsPrompts) :
    List String → List CompanyInfo × List Event
  | [] => ([], [])
  | t :: ts =>
    let evs0 := emit cb (Event.research_tool_start t)
    match dataOf (env.search (t ++ " official site") 1) with
    | [] =>
      let r := researchLoop env cb P ts
      (r.1, evs0 ++ r.2)
    | res :: _ =>
      let url := res.url.getD ""
      let seeded : CompanyInfo :=
        { name := t
        , description := res.markdown.getD ""
        , website := url
        , tech_stack := []
        , competitors := [] }
      let company :=
        match markdownOf (env.scrape url) with
        | some content => applyAnalysis seeded (analyzeCompanyContent env P t content)
        | none => seeded
      let r := researchLoop env cb P ts
      (company :: r.1, evs0 ++ emit cb (Event.company_ready company) ++ r.2)

/-- Lines 124-168 after the tool-name list is fixed: emit
`research_start`, run the loop, emit `research_done` with the count. -/
def researchAfter (env : Env) (cb : Option ProgressCallback) (P : DeveloperToolsPrompts)
    (tools : List String) : List CompanyInfo × List Event :=
  let r := researchLoop env cb P tools
  (r.1, emit cb (Event.research_start tools) ++ r.2 ++ emit cb (Event.research_done r.1.length))

/-- Embeds `Workflow._research_step` (lines 110-172): with no extracted tools,
fall back to searching the original query (limit 4) and derive names
from result titles; otherwise keep at most the first 4 extracted names. -/
def researchStep (env : Env) (cb : Option ProgressCallback) (P : DeveloperToolsPrompts)
    (st : ResearchState) : List CompanyInfo × List Event :=
  if st.extracted_tools.isEmpty then
    let tool_names := (dataOf (env.search st.query 4)).map (fun r => r.title.getD "Unknown")
    let r := researchAfter env cb P tool_names
    (r.1, emit cb (Event.research_fallback st.query) ++ r.2)
  else
    researchAfter env cb P (st.extracted_tools.take 4)

/-- Embeds `Workflow._analyze_step` (lines 174-192): join the serialized
companies, ask the LLM for a recommendation; on any exception emit an
error event and return the fallback string. -/
def analyzeStep (env : Env) (cb : Option ProgressCallback) (P : DeveloperToolsPrompts)
    (st : ResearchState) : String × List Event :=
  let evs0 := emit cb Event.analysis_start
  match env.invoke (recommendationMessages P st.query (companiesBlob st.companies)) with
  | Except.ok content => (content, evs0 ++ emit cb (Event.analysis_done content))
  | Except.error e => ("Analysis failed", evs0 ++ emit cb (Event.error ("analysis failed: " ++ e)))

/-- The compiled langgraph chain (lines 44-53): run the three nodes in
order, merging each node's partial update into the accumulated state. -/
def invokeGraph (env : Env) (cb : Option ProgressCallback) (P : DeveloperToolsPrompts)
    (st0 : ResearchState) : ResearchState × List Event :=
  let e := extractStep env cb P st0.query
  let st1 := { st0 with extracted_tools := e.1 }
  let rch := researchStep env cb P st1
  let st2 := { st1 with companies := rch.1 }
  let a := analyzeStep env cb P st2
  ({ st2 with analysis := a.1 }, e.2 ++ rch.2 ++ a.2)

/-- Embeds `Workflow.run` (lines 194-215): optionally install the passed
callback, build the initial state, invoke the graph, emit the `final`
event, and — the `finally` clause — clear the stored callback reference
before handing back.  Returns the terminal state, the emission trace,
and the workflow's post-run instance state. -/
def Workflow.run (w : Workflow) (query : String) (cbOpt : Option ProgressCallback) :
    ResearchState × List Event × Workflow :=
  let w1 :=
    match cbOpt with
    | some cb => { w with progress_callback := some cb }
    | none => w
  let cb := w1.progress_callback
  let r := invokeGraph w.env cb w.prompts { query := query }
  (r.1, r.2 ++ emit cb (Event.final r.1), { w1 with progress_callback := none })

/-- Projection of `company_ready` events out of a trace. -/
def companyReadyOf : Event → Option CompanyInfo
  | Event.company_ready c => some c
  | _ => none

/-! ### Helper lemmas -/

/-- The emit helper delivers the event to the trace whatever the callback does:
a raising callback is caught (lines 40-42), an absent one skipped. -/
theorem emit_eq (cb : Option ProgressCallback) (e : Event) : emit cb e = [e] := by
  cases cb with
  | none => rfl
  | some f => cases h : f e <;> simp [emit, h]

/-- The research loop appends at most one company per attempted tool. -/
theorem researchLoop_length (env : Env) (cb : Option ProgressCallback)
    (P : DeveloperToolsPrompts) (ts : List String) :
    (researchLoop env cb P ts).1.length ≤ ts.length := by
  induction ts with
  | nil => simp [researchLoop]
  | cons t ts ih =>
    simp only [researchLoop]
    cases hd : dataOf (env.search (t ++ " official site") 1) with
    | nil => simpa [hd] using Nat.le_succ_of_le ih
    | cons res rest => simpa [hd] using ih

/-- No component of the loop's output depends on the callback. -/
theorem researchLoop_cb (env : Env) (cb : Option ProgressCallback)
    (P : DeveloperToolsPrompts) (ts : List String) :
    researchLoop env cb P ts = researchLoop env none P ts := by
  induction ts with
  | nil => rfl
  | cons t ts ih =>
    simp only [researchLoop, emit_eq, ih]

/-- The extract stage's output does not depend on the callback. -/
theorem extractStep_cb (env : Env) (cb : Option ProgressCallback)
    (P : DeveloperToolsPrompts) (q : String) :
    extractStep env cb P q = extractStep env none P q := by
  simp only [extractStep, emit_eq]

/-- The research stage's output does not depend on the callback. -/
theorem researchStep_cb (env : Env) (cb : Option ProgressCallback)
    (P : DeveloperToolsPrompts) (st : ResearchState) :
    researchStep env cb P st = researchStep env none P st := by
  simp only [researchStep, researchAfter, emit_eq, researchLoop_cb]

/-- The analyze stage's output does not depend on the callback. -/
theorem analyzeStep_cb (env : Env) (cb : Option ProgressCallback)
    (P : DeveloperToolsPrompts) (st : ResearchState) :
    analyzeStep env cb P st = analyzeStep env none P st := by
  simp only [analyzeStep, emit_eq]

/-- The whole chain's output does not depend on the callback. -/
theorem invokeGraph_cb (env : Env) (cb : Option ProgressCallback)
    (P : DeveloperToolsPrompts) (st0 : ResearchState) :
    invokeGraph env cb P st0 = invokeGraph env none P st0 := by
  simp only [invokeGraph, extractStep_cb, researchStep_cb, analyzeStep_cb]

/-- The analysis string an analyze-step invocation produces, as a match
on the LLM call's outcome. -/
theorem analyzeStep_analysis (env : Env) (cb : Option ProgressCallback)
    (P : DeveloperToolsPrompts) (st : ResearchState) :
    (analyzeStep env cb P st).1 =
      match env.invoke (recommendationMessages P st.query (companiesBlob st.companies)) with
      | Except.ok c => c
      | Except.error _ => "Analysis failed" := by
  simp only [analyzeStep]
  cases h : env.invoke (recommendationMessages P st.query (companiesBlob st.companies)) <;>
    simp [h]

/-- The chain's terminal analysis field, phrased over its own
terminal companies list. -/
theorem invokeGraph_analysis (env : Env) (cb : Option ProgressCallback)
    (P : DeveloperToolsPrompts) (st0 : ResearchState) :
    (invokeGraph env cb P st0).1.analysis =
      match env.invoke (recommendationMessages P st0.query
          (companiesBlob (invokeGraph env cb P st0).1.companies)) with
      | Except.ok c => c
      | Except.error _ => "Analysis failed" := by
  simp [invokeGraph, analyzeStep_analysis]

/-- Prompt templates with trivial content, for concrete runs. -/
def promptsTriv : DeveloperToolsPrompts :=
  { TOOL_EXTRACTION_SYSTEM := ""
  , tool_extraction_user := fun _ _ => ""
  , TOOL_ANALYSIS_SYSTEM := ""
  , tool_analysis_user := fun _ _ => ""
  , RECOMMENDATIONS_SYSTEM := ""
  , recommendations_user := fun _ _ => "" }

/-- A world where every external service fails: searches return null,
scrapes return null, the LLM raises. -/
def envNoResults : Env :=
  { search := fun _ _ => none
  , scrape := fun _ => none
  , invoke := fun _ => Except.error "service down"
  , invokeStructured := fun _ => Except.error "service down" }

/-- A workflow instance over the all-failing world. -/
def wTriv : Workflow := { env := envNoResults, prompts := promptsTriv }

/-- The research stage produces at most 4 companies, provided the
search client honors its `limit` argument on the fallback search. -/
theorem researchStep_le_four (env : Env) (cb : Option ProgressCallback)
    (P : DeveloperToolsPrompts) (st : ResearchState)
    (hb : ∀ r, env.search st.query 4 = some r → r.length ≤ 4) :
    (researchStep env cb P st).1.length ≤ 4 := by
  by_cases h : st.extracted_tools.isEmpty
  · simp only [researchStep, if_pos h, researchAfter]
    refine le_trans (researchLoop_length _ _ _ _) ?_
    rw [List.length_map]
    cases hs : env.search st.query 4 with
    | none => simp [dataOf]
    | some r => simpa [dataOf] using hb r hs
  · simp only [researchStep, if_neg h, researchAfter]
    refine le_trans (researchLoop_length _ _ _ _) ?_
    rw [List.length_take]
    exact min_le_left _ _

/-! ### Claims -/

/-- C1: for every query (and any oracle and callback), `run` terminates
— it is a total function of this embedding — and the terminal state's
`analysis` field is exactly the recommendation LLM call's content when
that call succeeds, and the literal fallback string "Analysis failed"
when it raises; the analyze stage never propagates an exception. -/
theorem run_analysis_content_or_fallback (w : Workflow) (q : String)
    (cbOpt : Option ProgressCallback) :
    ((w.run q cbOpt).1).analysis =
      match w.env.invoke (recommendationMessages w.prompts q
          (companiesBlob ((w.run q cbOpt).1).companies)) with
      | Except.ok c => c
      | Except.error _ => "Analysis failed" := by
  cases cbOpt <;>
  · simp only [Workflow.run]
    simpa using invokeGraph_analysis w.env _ w.prompts { query := q }

/-- C4: the per-tool content analysis returns the structured LLM call's
record when the call succeeds, and exactly the sentinel record
(pricing_model "Unknown", unknown booleans, empty lists, description
"Failed") when the call raises; it never propagates an exception. -/
theorem analyze_company_content_ok_or_sentinel (env : Env)
    (P : DeveloperToolsPrompts) (n c : String) :
    (∃ a, env.invokeStructured (analysisMessages P n c) = Except.ok a ∧
        analyzeCompanyContent env P n c = a) ∨
    (∃ e, env.invokeStructured (analysisMessages P n c) = Except.error e ∧
        analyzeCompanyContent env P n c =
          { pricing_model := "Unknown", is_open_source := none, tech_stack := [],
            description := "Failed", api_available := none, language_support := [],
            integration_capabilities := [] }) := by
  cases h : env.invokeStructured (analysisMessages P n c) with
  | ok a => exact Or.inl ⟨a, rfl, by simp [analyzeCompanyContent, h]⟩
  | error e => exact Or.inr ⟨e, rfl, by simp [analyzeCompanyContent, h, sentinelAnalysis]⟩

/-- C2: for every run — regardless of how many tool names stage 1
extracted, and on the fallback path too — the terminal state carries at
most 4 companies.  The fallback search is issued with limit 4, so the
spec's client contract (search returns at most `limit` results) enters
as the hypothesis `hb`. -/
theorem run_companies_le_four (w : Workflow) (q : String)
    (cbOpt : Option ProgressCallback)
    (hb : ∀ s r, w.env.search s 4 = some r → r.length ≤ 4) :
    ((w.run q cbOpt).1).companies.length ≤ 4 := by
  cases cbOpt <;>
  · simp only [Workflow.run, invokeGraph]
    exact researchStep_le_four _ _ _ _ (fun r hr => hb _ r hr)

/-- Witness for C2: on the all-failing world the bound holds. -/
theorem run_companies_le_four_witness :
    ((wTriv.run "serverless databases" none).1).companies.length ≤ 4 :=
  run_companies_le_four wTriv "serverless databases" none
    (by intro s r h; simp [wTriv, envNoResults] at h)

/-- C3: a tool whose "official site" search yields no results (null
response or empty data) contributes no Company record — the loop's
output is that of the remaining tools — and, in consequence, the
companies list never outgrows the attempted tool-name list. -/
theorem no_results_skips_tool (env : Env) (cb : Option ProgressCallback)
    (P : DeveloperToolsPrompts) (t : String) (ts : List String)
    (h : dataOf (env.search (t ++ " official site") 1) = []) :
    (researchLoop env cb P (t :: ts)).1 = (researchLoop env cb P ts).1 ∧
    ∀ us : List String, (researchLoop env cb P us).1.length ≤ us.length := by
  constructor
  · simp [researchLoop, h]
  · intro us
    exact researchLoop_length env cb P us

/-- Witness for C3: a concrete tool with a null search result is
skipped. -/
theorem no_results_skips_tool_witness :
    dataOf (envNoResults.search ("LaunchDarkly" ++ " official site") 1) = [] ∧
    (researchLoop envNoResults none promptsTriv ["LaunchDarkly"]).1 =
      (researchLoop envNoResults none promptsTriv []).1 :=
  ⟨rfl, (no_results_skips_tool envNoResults none promptsTriv "LaunchDarkly" [] rfl).1⟩

/-- A world where the tool search finds one hit carrying a markdown
snippet, but every scrape fails (returns null). -/
def envScrapeFail : Env :=
  { search := fun s _ =>
      if s = "T official site" then
        some [{ url := some "https://t.example", markdown := some "Seed snippet"
              , title := some "T" }]
      else none
  , scrape := fun _ => none
  , invoke := fun _ => Except.error "service down"
  , invokeStructured := fun _ => Except.error "service down" }

/-- Counterexample to C5 as stated: for tool "T" the search succeeds
but the scrape fails, and the appended record does NOT carry the
sentinel analysis fields — its description is the seeded search-result
snippet, not "Failed", and its pricing_model is the unset default, not
"Unknown".  (The sentinel is substituted only when a successful scrape
is followed by a failing analysis call, lines 147-157.) -/
theorem scrape_failure_not_sentinel_cex :
    markdownOf (envScrapeFail.scrape "https://t.example") = none ∧
    (researchLoop envScrapeFail none promptsTriv ["T"]).1.map CompanyInfo.description
      = ["Seed snippet"] ∧
    (researchLoop envScrapeFail none promptsTriv ["T"]).1.map CompanyInfo.pricing_model
      = [none] ∧
    ("Seed snippet" : String) ≠ "Failed" := by
  exact ⟨rfl, rfl, rfl, by decide⟩

/-- C5 amended: for a tool whose search produced a hit but whose page
scrape fails (null result or no/empty markdown), the record is still
appended, carrying its seeded values — description is the search hit's
raw markdown snippet, website its URL, tech_stack empty, and the
analysis fields left at their unset defaults. -/
theorem scrape_failure_appends_seeded (env : Env) (cb : Option ProgressCallback)
    (P : DeveloperToolsPrompts) (t : String) (ts : List String)
    (res : SearchResult) (rest : List SearchResult)
    (h1 : dataOf (env.search (t ++ " official site") 1) = res :: rest)
    (h2 : markdownOf (env.scrape (res.url.getD "")) = none) :
    (researchLoop env cb P (t :: ts)).1 =
      ({ name := t, description := res.markdown.getD "", website := res.url.getD ""
       , tech_stack := [], competitors := [] } : CompanyInfo)
        :: (researchLoop env cb P ts).1 := by
  simp [researchLoop, h1, h2]

/-- Witness for the amended C5 on the concrete scrape-failing world. -/
theorem scrape_failure_appends_seeded_witness :
    dataOf (envScrapeFail.search ("T" ++ " official site") 1) =
      ({ url := some "https://t.example", markdown := some "Seed snippet"
       , title := some "T" } : SearchResult) :: [] ∧
    markdownOf (envScrapeFail.scrape "https://t.example") = none ∧
    (researchLoop envScrapeFail none promptsTriv ["T"]).1 =
      [{ name := "T", description := "Seed snippet", website := "https://t.example"
       , tech_stack := [], competitors := [] }] :=
  ⟨rfl, rfl, scrape_failure_appends_seeded envScrapeFail none promptsTriv "T" []
    { url := some "https://t.example", markdown := some "Seed snippet", title := some "T" }
    [] rfl rfl⟩

/-- A world where every search returns null but the LLM still answers
the extraction prompt with two tool names. -/
def envLlmNames : Env :=
  { search := fun _ _ => none
  , scrape := fun _ => none
  , invoke := fun _ => Except.ok "ToolA\nToolB"
  , invokeStructured := fun _ => Except.error "service down" }

/-- Counterexample to C7 as stated: the search client returns no
results for the derived extraction query, yet `extracted_tools` is NOT
empty — the extraction LLM is still invoked (with empty page content,
lines 69-79) and its completion supplies tool names, so the research
stage does not take the fallback path. -/
theorem empty_search_nonempty_extraction_cex :
    dataOf (envLlmNames.search ("feature flags" ++ " tools comparison best alternatives") 3)
      = [] ∧
    (extractStep envLlmNames none promptsTriv "feature flags").1 = ["ToolA", "ToolB"] ∧
    (["ToolA", "ToolB"] : List String) ≠ [] := by
  refine ⟨rfl, by decide, by decide⟩

/-- C7 amended: when the search client returns no results for the
derived extraction query AND the extraction LLM call yields no names
(it raises, or its completion trims/splits to none), `extracted_tools`
is empty, and the research stage then takes the fallback path: it emits
`research_fallback`, searches the original query with limit 4, and
derives the tool names from result titles. -/
theorem empty_search_empty_llm_fallback (env : Env) (cb : Option ProgressCallback)
    (P : DeveloperToolsPrompts) (q : String)
    (h1 : dataOf (env.search (q ++ " tools comparison best alternatives") 3) = [])
    (h2 : ∀ c, env.invoke (extractionMessages P q "") = Except.ok c → splitTrim c = []) :
    (extractStep env cb P q).1 = [] ∧
    ∃ evs, (researchStep env cb P
        { query := q, extracted_tools := (extractStep env cb P q).1 }).2 =
      Event.research_fallback q ::
        Event.research_start ((dataOf (env.search q 4)).map (fun r => r.title.getD "Unknown"))
          :: evs := by
  have hext : (extractStep env cb P q).1 = [] := by
    simp only [extractStep, h1, gatherContent]
    cases hc : env.invoke (extractionMessages P q "") with
    | ok c => simp [h2 c hc]
    | error e => simp
  refine ⟨hext, ?_⟩
  refine ⟨(researchLoop env cb P
      ((dataOf (env.search q 4)).map (fun r => r.title.getD "Unknown"))).2 ++
      [Event.research_done (researchLoop env cb P
        ((dataOf (env.search q 4)).map (fun r => r.title.getD "Unknown"))).1.length], ?_⟩
  simp [researchStep, researchAfter, hext, emit_eq]

/-- Witness for the amended C7 on the all-failing world. -/
theorem empty_search_empty_llm_fallback_witness :
    (extractStep envNoResults none promptsTriv "feature flags").1 = [] ∧
    ∃ evs, (researchStep envNoResults none promptsTriv
        { query := "feature flags"
        , extracted_tools := (extractStep envNoResults none promptsTriv "feature flags").1 }).2 =
      Event.research_fallback "feature flags" ::
        Event.research_start ((dataOf (envNoResults.search "feature flags" 4)).map
          (fun r => r.title.getD "Unknown")) :: evs :=
  empty_search_empty_llm_fallback envNoResults none promptsTriv "feature flags" rfl
    (by intro c h; simp [envNoResults] at h)

/-- C9: after every invocation of `run`, the instance's stored
progress-callback reference is cleared (the `finally` clause of
lines 213-215). -/
theorem run_clears_progress_callback (w : Workflow) (q : String)
    (cbOpt : Option ProgressCallback) :
    ((w.run q cbOpt).2.2).progress_callback = none := by
  cases cbOpt <;> rfl

/-- C10: a callback that raises on any event is caught inside `_emit`;
the run's terminal state and emission sequence are identical to those
with any other callback. -/
theorem callback_exception_immaterial (w : Workflow) (q : String)
    (cb cb' : ProgressCallback) :
    (w.run q (some cb)).1 = (w.run q (some cb')).1 ∧
    (w.run q (some cb)).2.1 = (w.run q (some cb')).2.1 := by
  constructor <;> simp only [Workflow.run, invokeGraph_cb, emit_eq]

/-- The loop's trace contains exactly one `company_ready` event per
appended record, in order. -/
theorem researchLoop_ready (env : Env) (cb : Option ProgressCallback)
    (P : DeveloperToolsPrompts) (ts : List String) :
    (researchLoop env cb P ts).2.filterMap companyReadyOf = (researchLoop env cb P ts).1 := by
  induction ts with
  | nil => simp [researchLoop]
  | cons t ts ih =>
    simp only [researchLoop]
    cases hd : dataOf (env.search (t ++ " official site") 1) with
    | nil => simp [hd, emit_eq, companyReadyOf, ih]
    | cons res rest => simp [hd, emit_eq, companyReadyOf, ih]

/-- The extract stage emits no `company_ready` event. -/
theorem extractStep_no_ready (env : Env) (cb : Option ProgressCallback)
    (P : DeveloperToolsPrompts) (q : String) :
    (extractStep env cb P q).2.filterMap companyReadyOf = [] := by
  simp only [extractStep]
  cases h : env.invoke (extractionMessages P q
      (gatherContent env
        (dataOf (env.search (q ++ " tools comparison best alternatives") 3)) "")) <;>
    simp [emit_eq, companyReadyOf]

/-- The analyze stage emits no `company_ready` event. -/
theorem analyzeStep_no_ready (env : Env) (cb : Option ProgressCallback)
    (P : DeveloperToolsPrompts) (st : ResearchState) :
    (analyzeStep env cb P st).2.filterMap companyReadyOf = [] := by
  simp only [analyzeStep]
  cases h : env.invoke (recommendationMessages P st.query (companiesBlob st.companies)) <;>
    simp [emit_eq, companyReadyOf]

/-- The research stage's trace contains exactly one `company_ready`
event per company of its output, in order. -/
theorem researchStep_ready (env : Env) (cb : Option ProgressCallback)
    (P : DeveloperToolsPrompts) (st : ResearchState) :
    (researchStep env cb P st).2.filterMap companyReadyOf = (researchStep env cb P st).1 := by
  by_cases h : st.extracted_tools.isEmpty <;>
    simp [researchStep, researchAfter, h, emit_eq, companyReadyOf, researchLoop_ready]

/-- The research stage's trace splits as a prefix holding the
`company_ready` events followed by the `research_done` event. -/
theorem researchStep_decomp (env : Env) (cb : Option ProgressCallback)
    (P : DeveloperToolsPrompts) (st : ResearchState) :
    ∃ evsA, (researchStep env cb P st).2 =
        evsA ++ [Event.research_done (researchStep env cb P st).1.length] ∧
      evsA.filterMap companyReadyOf = (researchStep env cb P st).1 := by
  by_cases h : st.extracted_tools.isEmpty
  · refine ⟨Event.research_fallback st.query ::
      Event.research_start
        ((dataOf (env.search st.query 4)).map (fun r => r.title.getD "Unknown")) ::
      (researchLoop env cb P
        ((dataOf (env.search st.query 4)).map (fun r => r.title.getD "Unknown"))).2, ?_, ?_⟩
    · simp [researchStep, researchAfter, h, emit_eq]
    · simp [researchStep, researchAfter, h, emit_eq, companyReadyOf, researchLoop_ready]
  · refine ⟨Event.research_start (st.extracted_tools.take 4) ::
      (researchLoop env cb P (st.extracted_tools.take 4)).2, ?_, ?_⟩
    · simp [researchStep, researchAfter, h, emit_eq]
    · simp [researchStep, researchAfter, h, emit_eq, companyReadyOf, researchLoop_ready]

/-- Splitting a four-segment trace around the `research_done` event
when only the second segment carries `company_ready` events. -/
theorem stream_decomp_append (E R A F : List Event) (cs : List CompanyInfo)
    (evsA : List Event)
    (hE : E.filterMap companyReadyOf = [])
    (hA : A.filterMap companyReadyOf = [])
    (hF : F.filterMap companyReadyOf = [])
    (hR : R = evsA ++ [Event.research_done cs.length])
    (hready : evsA.filterMap companyReadyOf = cs) :
    (E ++ R ++ A ++ F).filterMap companyReadyOf = cs ∧
    ∃ xs ys, E ++ R ++ A ++ F = xs ++ Event.research_done cs.length :: ys ∧
      xs.filterMap companyReadyOf = cs ∧ ys.filterMap companyReadyOf = [] := by
  subst hR
  refine ⟨?_, E ++ evsA, A ++ F, ?_, ?_, ?_⟩
  · simp [List.filterMap_append, hE, hA, hF, hready, companyReadyOf]
  · simp
  · simp [List.filterMap_append, hE, hready]
  · simp [List.filterMap_append, hA, hF]

/-- The stream-ordering property for the trace a run assembles:
graph events followed by the `final` event. -/
theorem trace_ready_aux (env : Env) (cb : Option ProgressCallback)
    (P : DeveloperToolsPrompts) (q : String) :
    ((invokeGraph env cb P { query := q }).2 ++
        emit cb (Event.final (invokeGraph env cb P { query := q }).1)).filterMap
      companyReadyOf = (invokeGraph env cb P { query := q }).1.companies ∧
    ∃ xs ys, (invokeGraph env cb P { query := q }).2 ++
        emit cb (Event.final (invokeGraph env cb P { query := q }).1) =
        xs ++ Event.research_done (invokeGraph env cb P { query := q }).1.companies.length :: ys ∧
      xs.filterMap companyReadyOf = (invokeGraph env cb P { query := q }).1.companies ∧
      ys.filterMap companyReadyOf = [] := by
  obtain ⟨evsA, hsplit, hready⟩ := researchStep_decomp env cb P
    { query := q, extracted_tools := (extractStep env cb P q).1 }
  have H := stream_decomp_append
    (extractStep env cb P q).2
    (researchStep env cb P { query := q, extracted_tools := (extractStep env cb P q).1 }).2
    (analyzeStep env cb P
      { query := q, extracted_tools := (extractStep env cb P q).1
      , companies := (researchStep env cb P
          { query := q, extracted_tools := (extractStep env cb P q).1 }).1 }).2
    [Event.final
      { query := q, extracted_tools := (extractStep env cb P q).1
      , companies := (researchStep env cb P
          { query := q, extracted_tools := (extractStep env cb P q).1 }).1
      , analysis := (analyzeStep env cb P
          { query := q, extracted_tools := (extractStep env cb P q).1
          , companies := (researchStep env cb P
              { query := q, extracted_tools := (extractStep env cb P q).1 }).1 }).1 }]
    (researchStep env cb P { query := q, extracted_tools := (extractStep env cb P q).1 }).1
    evsA
    (extractStep_no_ready env cb P q)
    (analyzeStep_no_ready env cb P _)
    (by simp [companyReadyOf])
    hsplit hready
  simpa only [invokeGraph, emit_eq] using H

/-- C6: in every run, the `company_ready` events are exactly one per
record of the terminal state's companies list, in the same order, and
they all precede the `research_done` event (the trace splits around
`research_done` with all `company_ready` events before it and none
after). -/
theorem company_ready_stream (w : Workflow) (q : String)
    (cbOpt : Option ProgressCallback) :
    ((w.run q cbOpt).2.1).filterMap companyReadyOf = ((w.run q cbOpt).1).companies ∧
    ∃ evsA evsB, (w.run q cbOpt).2.1 =
        evsA ++ Event.research_done ((w.run q cbOpt).1).companies.length :: evsB ∧
      evsA.filterMap companyReadyOf = ((w.run q cbOpt).1).companies ∧
      evsB.filterMap companyReadyOf = [] := by
  cases cbOpt with
  | none => simpa only [Workflow.run] using trace_ready_aux w.env w.progress_callback w.prompts q
  | some cb => simpa only [Workflow.run] using trace_ready_aux w.env (some cb) w.prompts q

/-- C8: two runs with the same query against identical external
responses — the second run performed on the instance returned by the
first — produce identical terminal states and identical event
sequences. -/
theorem run_deterministic (w : Workflow) (q : String) (cb : ProgressCallback) :
    ((w.run q (some cb)).2.2.run q (some cb)).1 = (w.run q (some cb)).1 ∧
    ((w.run q (some cb)).2.2.run q (some cb)).2.1 = (w.run q (some cb)).2.1 := by
  exact ⟨rfl, rfl⟩

end DevtoolAgent
